import Mathlib

/-!
A verification development for the kairo weekly task tracker.

Part 1 embeds the week-calendar arithmetic of `src/kairo/utils.py` (together
with the CPython `datetime` primitives it calls: `date.toordinal`,
`date.weekday`, `date.isocalendar`) as functions on proleptic-Gregorian day
numbers (day 1 = 0001-01-01, a Monday, exactly `date.toordinal`).

Part 2 embeds the task store of `src/kairo/database.py` as a pure state
machine over an explicit relational state (the `tasks`, `tags` and
`task_tags` tables), with SQLite semantics made explicit: `cursor.rowcount`
bookkeeping, aggregate `SUM`/`MAX` returning NULL on empty input, and — as
in the source, which never issues `PRAGMA foreign_keys=ON` — no enforcement
of the declared `ON DELETE CASCADE` foreign keys.

Part 3 states and proves the properties.
-/

namespace Kairo

/-! ## Part 1: week calendar -/

/-- Days in all years before year `y` (CPython `datetime._days_before_year`).
Python `//` is floor division; Lean's `Int` `/` agrees with it for the
positive literal divisors used here. -/
def days_before_year (y : Int) : Int :=
  365 * (y - 1) + (y - 1) / 4 - (y - 1) / 100 + (y - 1) / 400

/-- Ordinal of January 4 of year `y` (`datetime(year, 1, 4).toordinal()`). -/
def jan4_ord (y : Int) : Int :=
  days_before_year y + 4

/-- Model of `date.weekday()` of ordinal `d`: Monday = 0. Ordinal 1 is a Monday. -/
def weekday (d : Int) : Int :=
  (d - 1) % 7

/-- Monday of ISO week 1 of year `y`. This is `utils.get_week_range`'s
`jan4 - timedelta(days=jan4.weekday())`, and equally CPython's
`_isoweek1monday` (both compute the Monday of the week containing Jan 4). -/
def week1_start (y : Int) : Int :=
  jan4_ord y - weekday (jan4_ord y)

/-- The calendar year containing ordinal `d`: the unique `y` with
`days_before_year y < d ≤ days_before_year (y + 1)`. CPython stores the
year in the `date` object; here it is recomputed from the ordinal via an
initial guess (400-year cycle = 146097 days) and a bounded adjustment. -/
def year_of_ord (d : Int) : Int :=
  if d ≤ days_before_year ((400 * d) / 146097 + 1 - 1) then (400 * d) / 146097 + 1 - 2
  else if d ≤ days_before_year ((400 * d) / 146097 + 1) then (400 * d) / 146097 + 1 - 1
  else if d ≤ days_before_year ((400 * d) / 146097 + 1 + 1) then (400 * d) / 146097 + 1
  else if d ≤ days_before_year ((400 * d) / 146097 + 1 + 2) then (400 * d) / 146097 + 1 + 1
  else (400 * d) / 146097 + 1 + 2

/-- Model of `date.fromordinal(d).isocalendar()` restricted to (ISO year, ISO week):
CPython computes the week offset from week 1 of the calendar year and
adjusts at both year boundaries. -/
def isocalendar (d : Int) : Int × Int :=
  if (d - week1_start (year_of_ord d)) / 7 < 0 then
    (year_of_ord d - 1, (d - week1_start (year_of_ord d - 1)) / 7 + 1)
  else if 52 ≤ (d - week1_start (year_of_ord d)) / 7 ∧
      week1_start (year_of_ord d + 1) ≤ d then
    (year_of_ord d + 1, 1)
  else
    (year_of_ord d, (d - week1_start (year_of_ord d)) / 7 + 1)

/-- Model of `utils.get_week_range` at day granularity: (Monday, Sunday) of the ISO
week. The source's end carries time 23:59:59, which never affects
`isocalendar`, so dates suffice. -/
def get_week_range (year week : Int) : Int × Int :=
  (week1_start year + 7 * (week - 1), week1_start year + 7 * (week - 1) + 6)

/-- Model of `utils.get_next_week`: one day past the end of the week range,
re-derived through the ISO calendar. -/
def get_next_week (year week : Int) : Int × Int :=
  isocalendar ((get_week_range year week).2 + 1)

/-- The previous-week computation of `KairoApp.action_prev_week`
(src/kairo/tui.py): seven days before the week's start date, re-derived
through the ISO calendar. -/
def get_prev_week (year week : Int) : Int × Int :=
  isocalendar ((get_week_range year week).1 - 7)

/-- Number of ISO weeks in ISO year `y` (52 or 53); used to state which
(year, week) pairs are valid. -/
def iso_weeks (y : Int) : Int :=
  (week1_start (y + 1) - week1_start y) / 7

/-! ## Part 2: task store -/

/-- Task status enumeration (src/kairo/models.py). -/
inductive TaskStatus where
  | OPEN
  | COMPLETED
deriving DecidableEq

/-- The string stored in the `status` column (`TaskStatus.value`). -/
def TaskStatus.value : TaskStatus → String
  | .OPEN => "open"
  | .COMPLETED => "completed"

/-- A row of the `tasks` table. Nullable columns are `Option`s; timestamps
are the opaque ISO-format strings the source stores. -/
structure TaskRow where
  id : Nat
  title : String
  description : String
  status : String
  week : Option Int
  year : Option Int
  created_at : String
  completed_at : Option String
  estimate : Option Int
  project : Option String
  position : Option Int
deriving DecidableEq

/-- A row of the `tags` table (`name` is declared UNIQUE). -/
structure TagRow where
  id : Nat
  name : String
deriving DecidableEq

/-- A row of the `task_tags` junction table (primary key: both columns). -/
structure TaskTagRow where
  task_id : Nat
  tag_id : Nat
deriving DecidableEq

/-- The store state: the three tables plus the AUTOINCREMENT counters. -/
structure DB where
  tasks : List TaskRow
  tags : List TagRow
  task_tags : List TaskTagRow
  next_task_id : Nat
  next_tag_id : Nat
deriving DecidableEq

/-- A fresh database (SQLite rowids start at 1). -/
def DB.empty : DB :=
  { tasks := [], tags := [], task_tags := [], next_task_id := 1, next_tag_id := 1 }

/-- The `Task` dataclass (src/kairo/models.py) as returned to callers; the
enum-valued `status` is represented by its stored string value. -/
structure Task where
  id : Nat
  title : String
  description : String
  status : String
  week : Option Int
  year : Option Int
  created_at : String
  completed_at : Option String
  tags : List String
  estimate : Option Int
  project : Option String
  position : Int
deriving DecidableEq

/-- SQL `MAX` over a column: NULL on empty input. -/
def sql_max (xs : List Int) : Option Int :=
  xs.foldl (fun acc x =>
    match acc with
    | none => some x
    | some m => some (max m x)) none

/-- Python `x or d` for a nullable integer `x`: `None` and `0` are falsy. -/
def py_or_int (x : Option Int) (d : Int) : Int :=
  match x with
  | none => d
  | some n => if n = 0 then d else n

/-- Byte-order comparison on char lists: the effect of SQLite's BINARY
collation (`ORDER BY tags.name`) on these UTF-8 strings. -/
def str_le : List Char → List Char → Bool
  | [], _ => true
  | _ :: _, [] => false
  | a :: as, b :: bs =>
    if a.toNat < b.toNat then true
    else if b.toNat < a.toNat then false
    else str_le as bs

/-- The `ORDER BY tags.name` ordering as a relation on names. -/
def name_le (a b : String) : Prop := str_le a.data b.data = true

instance : DecidableRel name_le := fun _ _ => instDecidableEqBool _ _

/-- Model of `Database._get_or_create_tag`: look the name up, else insert it. -/
def DB.get_or_create_tag (db : DB) (tag_name : String) : Nat × DB :=
  match db.tags.find? (fun t => t.name == tag_name) with
  | some t => (t.id, db)
  | none =>
    (db.next_tag_id,
     { db with tags := db.tags ++ [⟨db.next_tag_id, tag_name⟩],
               next_tag_id := db.next_tag_id + 1 })

/-- Model of `Database._add_tag_to_task`: `INSERT OR IGNORE` into `task_tags`. -/
def DB.add_tag_to_task (db : DB) (task_id : Nat) (tag_name : String) : DB :=
  let r := db.get_or_create_tag tag_name
  let tag_id := r.1
  let db1 := r.2
  if db1.task_tags.contains ⟨task_id, tag_id⟩ then db1
  else { db1 with task_tags := db1.task_tags ++ [⟨task_id, tag_id⟩] }

/-- Model of `Database._get_task_tags`: names joined through `task_tags`,
`ORDER BY tags.name`. -/
def DB.get_task_tags (db : DB) (task_id : Nat) : List String :=
  List.insertionSort name_le
    ((db.tags.filter (fun tg => db.task_tags.contains ⟨task_id, tg.id⟩)).map TagRow.name)

/-- Model of `Database._row_to_task`: falsy stored scalars (`0`, `''`, NULL) are
normalized through Python truthiness tests. -/
def DB.row_to_task (db : DB) (r : TaskRow) : Task :=
  { id := r.id
    title := r.title
    description := r.description
    status := r.status
    week := r.week
    year := r.year
    created_at := r.created_at
    completed_at :=
      match r.completed_at with
      | none => none
      | some s => if s = "" then none else some s
    tags := db.get_task_tags r.id
    estimate :=
      match r.estimate with
      | none => none
      | some e => if e = 0 then none else some e
    project :=
      match r.project with
      | none => none
      | some p => if p = "" then none else some p
    position :=
      match r.position with
      | none => 0
      | some p => if p = 0 then 0 else p }

/-- Model of `Database.add_task`. Here `now_year`/`now_week` stand for
`utils.get_current_week()` and `created_at` for `datetime.now()`, the two
clock reads of the source. -/
def DB.add_task (db : DB) (now_year now_week : Int) (created_at : String)
    (title : String) (description : String) (week0 year0 : Option Int)
    (tags : List String) (estimate : Option Int) (project : Option String)
    (schedule : Bool) : Task × DB :=
  let wy : Option Int × Option Int :=
    if schedule then
      if week0 = none ∨ year0 = none then (some now_week, some now_year)
      else (week0, year0)
    else (none, none)
  let week := wy.1
  let year := wy.2
  let max_position : Option Int :=
    if week.isSome && year.isSome then
      sql_max ((db.tasks.filter (fun r => r.week == week && r.year == year)).filterMap
        TaskRow.position)
    else
      sql_max ((db.tasks.filter (fun r => r.week == none && r.year == none)).filterMap
        TaskRow.position)
  let position := py_or_int max_position 0 + 1
  let task_id := db.next_task_id
  let row : TaskRow :=
    { id := task_id, title, description, status := TaskStatus.OPEN.value, week, year,
      created_at, completed_at := none, estimate, project, position := some position }
  let db1 : DB := { db with tasks := db.tasks ++ [row], next_task_id := task_id + 1 }
  let db2 := tags.foldl (fun d n => d.add_tag_to_task task_id n) db1
  ({ id := task_id, title, description, status := TaskStatus.OPEN.value, week, year,
     created_at, completed_at := none, tags, estimate, project, position }, db2)

/-- Model of `Database.get_task`: point lookup, then `_row_to_task`. -/
def DB.get_task (db : DB) (task_id : Nat) : Option Task :=
  (db.tasks.find? (fun r => r.id == task_id)).map db.row_to_task

/-- Model of `Database.complete_task`: `UPDATE ... WHERE id = ? AND status = 'open'`;
returns `rowcount > 0`. `completed_at` stands for `datetime.now()`. -/
def DB.complete_task (db : DB) (task_id : Nat) (completed_at : String) : Bool × DB :=
  (decide (0 < (db.tasks.filter (fun r =>
      r.id == task_id && r.status == TaskStatus.OPEN.value)).length),
   { db with tasks := db.tasks.map (fun r =>
       if r.id == task_id && r.status == TaskStatus.OPEN.value then
         { r with status := TaskStatus.COMPLETED.value, completed_at := some completed_at }
       else r) })

/-- Model of `Database.reopen_task`: the inverse transition. -/
def DB.reopen_task (db : DB) (task_id : Nat) : Bool × DB :=
  (decide (0 < (db.tasks.filter (fun r =>
      r.id == task_id && r.status == TaskStatus.COMPLETED.value)).length),
   { db with tasks := db.tasks.map (fun r =>
       if r.id == task_id && r.status == TaskStatus.COMPLETED.value then
         { r with status := TaskStatus.OPEN.value, completed_at := none }
       else r) })

/-- Model of `Database.delete_task`: `DELETE FROM tasks WHERE id = ?`. The
connection never enables `PRAGMA foreign_keys`, so the `ON DELETE CASCADE`
declared on `task_tags` does not fire and associations are left behind. -/
def DB.delete_task (db : DB) (task_id : Nat) : Bool × DB :=
  (decide (0 < (db.tasks.filter (fun r => r.id == task_id)).length),
   { db with tasks := db.tasks.filter (fun r => !(r.id == task_id)) })

/-- The three-state per-field update contract of `Database.update_task`:
`unset` is the `_UNSET` sentinel ("do not touch"), `set v` supplies a value
(possibly NULL). -/
inductive Param (α : Type) where
  | unset
  | set (v : α)
deriving DecidableEq

/-- Truthiness test `p is not _UNSET`. -/
def Param.isSet {α : Type} : Param α → Bool
  | .unset => false
  | .set _ => true

/-- Apply one field update to a current value. -/
def apply_param {α : Type} (p : Param α) (v : α) : α :=
  match p with
  | .unset => v
  | .set w => w

/-- The row image of `update_task`'s accumulated `SET` clause. -/
def update_row (title description : Param String) (estimate : Param (Option Int))
    (project : Param (Option String)) (position : Param (Option Int))
    (week : Param (Option Int)) (year : Param (Option Int)) (r : TaskRow) : TaskRow :=
  { r with
    title := apply_param title r.title
    description := apply_param description r.description
    estimate := apply_param estimate r.estimate
    project := apply_param project r.project
    position := apply_param position r.position
    week := apply_param week r.week
    year := apply_param year r.year }

/-- Model of `Database.update_task`. The cursor's `rowcount` starts at -1, is set by
the `UPDATE tasks` statement (when any non-tag field is supplied) and then
overwritten by the `DELETE FROM task_tags` statement (when tags are
supplied); the return value is `rowcount > 0 or tags is not _UNSET`. -/
def DB.update_task (db : DB) (task_id : Nat)
    (title description : Param String) (tags : Param (List String))
    (estimate : Param (Option Int)) (project : Param (Option String))
    (position : Param (Option Int)) (week : Param (Option Int))
    (year : Param (Option Int)) : Bool × DB :=
  let has_updates := title.isSet || description.isSet || estimate.isSet ||
    project.isSet || position.isSet || week.isSet || year.isSet
  let rowcount : Int := -1
  let step1 : Int × DB :=
    if has_updates then
      (((db.tasks.filter (fun r => r.id == task_id)).length : Int),
       { db with tasks := db.tasks.map (fun r =>
           if r.id == task_id then
             update_row title description estimate project position week year r
           else r) })
    else (rowcount, db)
  let step2 : Int × DB :=
    match tags with
    | .unset => step1
    | .set new_tags =>
      let d := step1.2
      let removed := (d.task_tags.filter (fun a => a.task_id == task_id)).length
      let d1 := { d with task_tags := d.task_tags.filter (fun a => !(a.task_id == task_id)) }
      ((removed : Int), new_tags.foldl (fun d2 n => d2.add_tag_to_task task_id n) d1)
  (decide (0 < step2.1) || tags.isSet, step2.2)

/-- Model of `Database.rollover_tasks`: bulk `UPDATE` of the open tasks of the
source bucket; returns `rowcount`. -/
def DB.rollover_tasks (db : DB) (from_year from_week to_year to_week : Int) : Int × DB :=
  let hit : TaskRow → Bool := fun r =>
    r.week == some from_week && r.year == some from_year &&
      r.status == TaskStatus.OPEN.value
  (((db.tasks.filter hit).length : Int),
   { db with tasks := db.tasks.map (fun r =>
       if hit r then { r with week := some to_week, year := some to_year } else r) })

/-- Model of `Database.rollback_tasks`: textually the same statement as
`rollover_tasks`, with the caller choosing the direction. -/
def DB.rollback_tasks (db : DB) (from_year from_week to_year to_week : Int) : Int × DB :=
  let hit : TaskRow → Bool := fun r =>
    r.week == some from_week && r.year == some from_year &&
      r.status == TaskStatus.OPEN.value
  (((db.tasks.filter hit).length : Int),
   { db with tasks := db.tasks.map (fun r =>
       if hit r then { r with week := some to_week, year := some to_year } else r) })

/-- The dictionary returned by `Database.get_week_stats`. `completed` and
`open` (here `open_`) are raw SQL `SUM`s, NULL over an empty bucket; the
three estimate fields have `or 0` applied by the source. -/
structure WeekStats where
  total : Int
  completed : Option Int
  open_ : Option Int
  total_estimate : Int
  completed_estimate : Int
  open_estimate : Int
deriving DecidableEq

/-- SQL `SUM(expr)` over the matching rows: NULL iff there are no rows. -/
def sql_sum (rows : List TaskRow) (f : TaskRow → Int) : Option Int :=
  match rows with
  | [] => none
  | _ => some (rows.foldl (fun acc r => acc + f r) 0)

/-- Model of `Database.get_week_stats`. -/
def DB.get_week_stats (db : DB) (year week : Int) : WeekStats :=
  let rows := db.tasks.filter (fun r => r.year == some year && r.week == some week)
  { total := (rows.length : Int)
    completed := sql_sum rows (fun r => if r.status = TaskStatus.COMPLETED.value then 1 else 0)
    open_ := sql_sum rows (fun r => if r.status = TaskStatus.OPEN.value then 1 else 0)
    total_estimate := py_or_int (sql_sum rows (fun r => r.estimate.getD 0)) 0
    completed_estimate := py_or_int (sql_sum rows (fun r =>
      if r.status = TaskStatus.COMPLETED.value then r.estimate.getD 0 else 0)) 0
    open_estimate := py_or_int (sql_sum rows (fun r =>
      if r.status = TaskStatus.OPEN.value then r.estimate.getD 0 else 0)) 0 }

/-- Model of `Database.swap_task_positions`: read both positions (failing fast on a
missing id), then write them crosswise. -/
def DB.swap_task_positions (db : DB) (task_id1 task_id2 : Nat) : Bool × DB :=
  match db.tasks.find? (fun r => r.id == task_id1) with
  | none => (false, db)
  | some row1 =>
    match db.tasks.find? (fun r => r.id == task_id2) with
    | none => (false, db)
    | some row2 =>
      let pos1 := row1.position
      let pos2 := row2.position
      let db1 := { db with tasks := db.tasks.map (fun r : TaskRow =>
        if r.id == task_id1 then { r with position := pos2 } else r) }
      let db2 := { db1 with tasks := db1.tasks.map (fun r : TaskRow =>
        if r.id == task_id2 then { r with position := pos1 } else r) }
      (true, db2)

/-! ## Part 3: properties -/

/-- The spec's week/year invariant, as a checkable store predicate: every
task has `week` and `year` both NULL or both non-NULL. -/
def week_year_ok (db : DB) : Bool :=
  db.tasks.all (fun r => r.week.isNone == r.year.isNone)

/-- An inbox task added to an empty store (week/year both NULL). -/
def c1_db1 : DB :=
  (DB.empty.add_task 2025 41 "2025-10-06T09:00:00" "Write report" "" none none []
    none none false).2

/-- A partial update setting only `week` (leaving `year` untouched). -/
def c1_db2 : DB :=
  (c1_db1.update_task 1 .unset .unset .unset .unset .unset .unset
    (.set (some 41)) .unset).2

/-- C1 counterexample: the invariant `(week is null) == (year is null)` does
NOT hold after every operation: starting from an empty store, adding an
inbox task and then calling `update_task` with only `week` supplied leaves a
task with `week = 41` and `year = NULL`. -/
theorem c1_counterexample :
    week_year_ok c1_db1 = true ∧ week_year_ok c1_db2 = false := by
  decide

/-- The amended side condition on `update_task`: `week` and `year` are
either both left untouched, or both set to values that are both null or
both non-null. -/
def wy_consistent (week year : Param (Option Int)) : Prop :=
  (week = Param.unset ∧ year = Param.unset) ∨
  (∃ a b, week = Param.set a ∧ year = Param.set b ∧ (a = none ↔ b = none))

/-- Positivity of a filter's length iff some member satisfies p. -/
theorem filter_length_pos_iff {α : Type} (p : α → Bool) (l : List α) :
    0 < (l.filter p).length ↔ ∃ a ∈ l, p a = true := by
  induction l with
  | nil => simp
  | cons x xs ih => by_cases h : p x = true <;> simp [h, ih]

/-- A conditional map whose condition never fires is the identity. -/
theorem map_if_id {α : Type} (p : α → Bool) (f : α → α) (l : List α)
    (h : ∀ a ∈ l, p a = false) :
    (l.map (fun a => if p a then f a else a)) = l := by
  induction l with
  | nil => rfl
  | cons x xs ih =>
    simp only [List.map_cons, h x (by simp), ih (fun a ha => h a (by simp [ha]))]
    simp

/-- Predicate `all` is preserved by a pointwise-preserving map. -/
theorem all_map_preserve {α : Type} (p : α → Bool) (f : α → α) (l : List α)
    (h : ∀ a ∈ l, p a = true → p (f a) = true) (hl : l.all p = true) :
    (l.map f).all p = true := by
  simp only [List.all_eq_true, List.mem_map] at *
  rintro b ⟨a, ha, rfl⟩
  exact h a ha (hl a ha)

/-- Predicate `all` is preserved by `filter`. -/
theorem all_filter_preserve {α : Type} (p q : α → Bool) (l : List α)
    (hl : l.all p = true) : (l.filter q).all p = true := by
  simp only [List.all_eq_true, List.mem_filter] at *
  exact fun a ha => hl a ha.1

/-- Helper `_add_tag_to_task` never touches the `tasks` table. -/
theorem add_tag_to_task_tasks (db : DB) (i : Nat) (n : String) :
    (db.add_tag_to_task i n).tasks = db.tasks := by
  unfold DB.add_tag_to_task DB.get_or_create_tag
  cases h : db.tags.find? (fun t => t.name == n) <;> simp only [h] <;> split <;> rfl

/-- Folding `_add_tag_to_task` over a tag list never touches `tasks`. -/
theorem foldl_add_tag_tasks (ns : List String) (db : DB) (i : Nat) :
    (ns.foldl (fun d n => d.add_tag_to_task i n) db).tasks = db.tasks := by
  induction ns generalizing db with
  | nil => rfl
  | cons n ns ih => rw [List.foldl_cons, ih, add_tag_to_task_tasks]

/-- A consistent week/year update keeps a row's week/year both-null or
both-non-null. -/
theorem update_row_wy (ti de : Param String) (es : Param (Option Int))
    (pr : Param (Option String)) (po w y : Param (Option Int)) (r : TaskRow)
    (hwy : wy_consistent w y) (hr : (r.week.isNone == r.year.isNone) = true) :
    ((update_row ti de es pr po w y r).week.isNone ==
      (update_row ti de es pr po w y r).year.isNone) = true := by
  rcases hwy with ⟨rfl, rfl⟩ | ⟨a, b, rfl, rfl, hab⟩
  · simpa [update_row, apply_param] using hr
  · cases a <;> cases b <;> simp_all [update_row, apply_param]

/-- C1 (amended): the week/year invariant is preserved by every store
operation, where for `update_task` the week/year fields must be updated
consistently (both untouched, or both set with both-null-or-both-non-null
values); the unamended claim fails only for `update_task` calls that touch
exactly one of the two fields (or set them inconsistently), as the
counterexample shows. -/
theorem c1_amended :
    (∀ db ny nw ca ti de w0 y0 tg es pr sc, week_year_ok db = true →
      week_year_ok (DB.add_task db ny nw ca ti de w0 y0 tg es pr sc).2 = true) ∧
    (∀ db i ca, week_year_ok db = true →
      week_year_ok (DB.complete_task db i ca).2 = true) ∧
    (∀ db i, week_year_ok db = true → week_year_ok (DB.reopen_task db i).2 = true) ∧
    (∀ db i, week_year_ok db = true → week_year_ok (DB.delete_task db i).2 = true) ∧
    (∀ db fy fw ty tw, week_year_ok db = true →
      week_year_ok (DB.rollover_tasks db fy fw ty tw).2 = true) ∧
    (∀ db fy fw ty tw, week_year_ok db = true →
      week_year_ok (DB.rollback_tasks db fy fw ty tw).2 = true) ∧
    (∀ db i j, week_year_ok db = true →
      week_year_ok (DB.swap_task_positions db i j).2 = true) ∧
    (∀ db i ti de tg es pr po w y, week_year_ok db = true → wy_consistent w y →
      week_year_ok (DB.update_task db i ti de tg es pr po w y).2 = true) := by
  refine ⟨?_, ?_, ?_, ?_, ?_, ?_, ?_, ?_⟩
  · intro db ny nw ca ti de w0 y0 tg es pr sc h
    unfold DB.add_task
    simp only [week_year_ok] at h ⊢
    rw [foldl_add_tag_tasks]
    simp only [List.all_append, List.all_cons, List.all_nil, Bool.and_eq_true]
    refine ⟨h, ?_, trivial⟩
    by_cases hsc : sc = true
    · by_cases hwy : w0 = none ∨ y0 = none
      · simp [hsc, hwy]
      · push_neg at hwy
        obtain ⟨a, rfl⟩ := Option.ne_none_iff_exists'.mp hwy.1
        obtain ⟨b, rfl⟩ := Option.ne_none_iff_exists'.mp hwy.2
        simp [hsc]
    · simp only [Bool.not_eq_true] at hsc
      simp [hsc]
  · intro db i ca h
    unfold DB.complete_task
    exact all_map_preserve _ _ _ (fun a _ ha => by split <;> exact ha) h
  · intro db i h
    unfold DB.reopen_task
    exact all_map_preserve _ _ _ (fun a _ ha => by split <;> exact ha) h
  · intro db i h
    unfold DB.delete_task
    exact all_filter_preserve _ _ _ h
  · intro db fy fw ty tw h
    unfold DB.rollover_tasks
    exact all_map_preserve _ _ _ (fun a _ ha => by split <;> first | exact ha | simp) h
  · intro db fy fw ty tw h
    unfold DB.rollback_tasks
    exact all_map_preserve _ _ _ (fun a _ ha => by split <;> first | exact ha | simp) h
  · intro db i j h
    unfold DB.swap_task_positions
    split
    · exact h
    · split
      · exact h
      · exact all_map_preserve _ _ _ (fun a _ ha => by split <;> simpa using ha)
          (all_map_preserve _ _ _ (fun a _ ha => by split <;> simpa using ha) h)
  · intro db i ti de tg es pr po w y h hwy
    unfold DB.update_task
    cases tg with
    | unset =>
      simp only
      split
      · exact all_map_preserve _ _ _ (fun a _ ha => by
          split
          · exact update_row_wy _ _ _ _ _ _ _ _ hwy ha
          · exact ha) h
      · exact h
    | set new_tags =>
      simp only [week_year_ok, foldl_add_tag_tasks]
      split
      · exact all_map_preserve _ _ _ (fun a _ ha => by
          split
          · exact update_row_wy _ _ _ _ _ _ _ _ hwy ha
          · exact ha) h
      · exact h

/-- C2 (code bug): `update_task` returns
`rowcount > 0 or tags is not _UNSET`, so (1) a tags-only update of an id
that does not exist returns true, and (2) a call supplying no field at all
returns false even when the task exists (the fresh cursor's rowcount is
-1). -/
theorem c2_update_task_return :
    (DB.empty.update_task 1 .unset .unset (.set ["x"]) .unset .unset .unset
      .unset .unset).1 = true ∧
    DB.empty.get_task 1 = none ∧
    ((DB.empty.add_task 2025 41 "t" "Task A" "" none none [] none none
      true).2.update_task 1 .unset .unset .unset .unset .unset .unset .unset
      .unset).1 = false ∧
    (DB.empty.add_task 2025 41 "t" "Task A" "" none none [] none none
      true).2.get_task 1 ≠ none := by
  decide

/-- One scheduled task in week (2025, 41) carrying the tag "work". -/
def c3_db : DB :=
  (DB.empty.add_task 2025 41 "2025-10-06T09:00:00" "Write report" "" (some 41)
    (some 2025) ["work"] none none true).2

/-- C3 (code bug): `delete_task` removes the task row and returns
true-iff-removed (and is a no-op returning false on an absent id), but the
`task_tags` association row survives the delete and remains readable —
the `ON DELETE CASCADE` declared in `_create_tables` never fires because
the connection does not enable `PRAGMA foreign_keys`. -/
theorem c3_delete_cascade :
    (c3_db.delete_task 1).1 = true ∧
    (c3_db.delete_task 1).2.tasks = [] ∧
    (c3_db.delete_task 1).2.task_tags = [⟨1, 1⟩] ∧
    (c3_db.delete_task 1).2.get_task_tags 1 = ["work"] ∧
    (c3_db.delete_task 2).1 = false ∧
    (c3_db.delete_task 2).2 = c3_db := by
  decide

/-- Two open tasks added to week (2025, 10) of an empty store. -/
def c4_db : DB :=
  ((DB.empty.add_task 2025 41 "2025-03-03T09:00:00" "Task A" "" (some 10)
      (some 2025) [] none none true).2.add_task 2025 41 "2025-03-03T09:05:00"
      "Task B" "" (some 10) (some 2025) [] none none true).2

/-- The rollover of the C4 scenario. -/
def c4_roll : Int × DB := c4_db.rollover_tasks 2025 10 2025 11

/-- C4 counterexample: after the rollover empties the (2025, 10) bucket,
`get_week_stats(2025, 10)["open"]` is the SQL `SUM` over zero rows — NULL
(None) — and not 0 as the claim states. -/
theorem c4_counterexample :
    ¬ ((c4_roll.2.get_week_stats 2025 10).open_ = some 0) := by
  decide

/-- C4 (amended): the scenario holds as stated except for the final
comparison: both tasks end with week=11, year=2025, `rollover_tasks`
returns 2, and `get_week_stats(2025,10)["open"]` is None (SQL NULL, the
no-rows sum) rather than 0, with the bucket indeed empty (total = 0). -/
theorem c4_amended :
    c4_roll.1 = 2 ∧
    ((c4_roll.2.get_task 1).map Task.week) = some (some 11) ∧
    ((c4_roll.2.get_task 1).map Task.year) = some (some 2025) ∧
    ((c4_roll.2.get_task 2).map Task.week) = some (some 11) ∧
    ((c4_roll.2.get_task 2).map Task.year) = some (some 2025) ∧
    (c4_roll.2.get_week_stats 2025 10).open_ = none ∧
    (c4_roll.2.get_week_stats 2025 10).total = 0 := by
  decide

/-- C5: `rollback_tasks` is extensionally identical to `rollover_tasks`:
same resulting store state and same returned count, on every store state
and every argument tuple. -/
theorem c5_rollback_eq_rollover (db : DB) (fy fw ty tw : Int) :
    db.rollback_tasks fy fw ty tw = db.rollover_tasks fy fw ty tw := rfl

/-- C6: `complete_task(id)` returns true, sets the task's status to
Completed and stamps a non-null `completed_at`, exactly when a task with
that id exists and is currently Open; otherwise it returns false and
leaves the whole store unchanged; completing the same task a second time
returns false and changes nothing. -/
theorem c6_complete_task (db : DB) (i : Nat) (t1 t2 : String)
    (hids : (db.tasks.map TaskRow.id).Nodup) :
    ((db.complete_task i t1).1 = true ↔
      ∃ r ∈ db.tasks, r.id = i ∧ r.status = TaskStatus.OPEN.value) ∧
    ((db.complete_task i t1).1 = true →
      ∀ r ∈ (db.complete_task i t1).2.tasks, r.id = i →
        r.status = TaskStatus.COMPLETED.value ∧ r.completed_at = some t1) ∧
    ((db.complete_task i t1).1 = false → (db.complete_task i t1).2 = db) ∧
    ((db.complete_task i t1).1 = true →
      ((db.complete_task i t1).2.complete_task i t2).1 = false ∧
      ((db.complete_task i t1).2.complete_task i t2).2 = (db.complete_task i t1).2) := by
  have hiff : (db.complete_task i t1).1 = true ↔
      ∃ r ∈ db.tasks, r.id = i ∧ r.status = TaskStatus.OPEN.value := by
    unfold DB.complete_task
    simp only [decide_eq_true_eq, filter_length_pos_iff, Bool.and_eq_true, beq_iff_eq]
  refine ⟨hiff, ?_, ?_, ?_⟩
  · intro hok r hr hri
    obtain ⟨r0, hr0, hr0i, hr0s⟩ := hiff.mp hok
    unfold DB.complete_task at hr
    simp only [List.mem_map] at hr
    obtain ⟨a, ha, rfl⟩ := hr
    by_cases hhit : (a.id == i && a.status == TaskStatus.OPEN.value) = true
    · simp [hhit]
    · rw [Bool.not_eq_true] at hhit
      simp only [hhit, Bool.false_eq_true, if_false] at hri ⊢
      have : a = r0 := List.inj_on_of_nodup_map hids ha hr0 (by rw [hri, hr0i])
      subst this
      simp [hr0i, hr0s] at hhit
  · intro hfalse
    have hnex : ¬ ∃ r ∈ db.tasks, r.id = i ∧ r.status = TaskStatus.OPEN.value := by
      intro hex
      simp [hiff.mpr hex] at hfalse
    have hz : ∀ a ∈ db.tasks,
        (a.id == i && a.status == TaskStatus.OPEN.value) = false := by
      intro a ha
      by_contra hc
      simp only [Bool.not_eq_false, Bool.and_eq_true, beq_iff_eq] at hc
      exact hnex ⟨a, ha, hc⟩
    unfold DB.complete_task
    rw [map_if_id _ _ _ hz]
  · intro _
    have hz : ∀ a ∈ (db.complete_task i t1).2.tasks,
        (a.id == i && a.status == TaskStatus.OPEN.value) = false := by
      intro a ha
      unfold DB.complete_task at ha
      simp only [List.mem_map] at ha
      obtain ⟨b, hb, rfl⟩ := ha
      by_cases hhit : (b.id == i && b.status == TaskStatus.OPEN.value) = true
      · simp only [Bool.and_eq_true, beq_iff_eq] at hhit
        simp [hhit.1, hhit.2, TaskStatus.value]
      · rw [Bool.not_eq_true] at hhit
        simp [hhit]
    have hlen : ((db.complete_task i t1).2.tasks.filter
        (fun r => r.id == i && r.status == TaskStatus.OPEN.value)).length = 0 := by
      by_contra hc
      obtain ⟨a, ha, hp⟩ := (filter_length_pos_iff _ _).mp (Nat.pos_of_ne_zero hc)
      rw [hz a ha] at hp
      exact Bool.false_ne_true hp
    set d1 := (db.complete_task i t1).2 with hd1
    constructor
    · show (d1.complete_task i t2).1 = false
      unfold DB.complete_task
      simp [hlen, ← hd1]
    · show (d1.complete_task i t2).2 = d1
      unfold DB.complete_task
      rw [map_if_id _ _ _ hz]

/-- A store holding exactly one open task with id 1 (week (2025, 41)). -/
def c6_db : DB :=
  (DB.empty.add_task 2025 41 "2025-10-06T09:00:00" "Task A" "" (some 41) (some 2025)
    [] none none true).2

/-- Witness for C6: completing the open task with id 1 succeeds. -/
theorem c6_complete_task_witness :
    (c6_db.complete_task 1 "2025-10-07T10:00:00").1 = true :=
  (c6_complete_task c6_db 1 "2025-10-07T10:00:00" "x" (by decide)).1.mpr
    ⟨⟨1, "Task A", "", "open", some 41, some 2025, "2025-10-06T09:00:00", none,
      none, none, some 1⟩, by decide, rfl, rfl⟩

/-- C9: reading a task back from the store (`get_task` goes through
`_row_to_task`, as do all list operations) normalizes falsy stored
scalars: estimate 0 reads as None, empty-string project reads as None,
NULL or 0 position reads as 0. -/
theorem c9_read_normalization (db : DB) (i : Nat) (r : TaskRow)
    (hfind : db.tasks.find? (fun x => x.id == i) = some r) :
    db.get_task i = some (db.row_to_task r) ∧
    (r.estimate = some 0 → (db.row_to_task r).estimate = none) ∧
    (r.project = some "" → (db.row_to_task r).project = none) ∧
    (r.position = none → (db.row_to_task r).position = 0) ∧
    (r.position = some 0 → (db.row_to_task r).position = 0) := by
  refine ⟨by simp [DB.get_task, hfind], ?_, ?_, ?_, ?_⟩ <;>
    (intro h; simp [DB.row_to_task, h])

/-- A store whose single task was stored with estimate 0 and project "". -/
def c9_db : DB :=
  (DB.empty.add_task 2025 41 "2025-10-06T09:00:00" "Zeroes" "" none none []
    (some 0) (some "") true).2

/-- Witness for C9: the stored 0-estimate and empty-string project read
back as None. -/
theorem c9_read_normalization_witness :
    ((c9_db.get_task 1).map Task.estimate = some none) ∧
    ((c9_db.get_task 1).map Task.project = some none) := by
  have h := c9_read_normalization c9_db 1
    ⟨1, "Zeroes", "", "open", some 41, some 2025, "2025-10-06T09:00:00", none,
      some 0, some "", some 1⟩ (by decide)
  refine ⟨?_, ?_⟩
  · rw [h.1]
    simp [h.2.1 rfl]
  · rw [h.1]
    simp [h.2.2.1 rfl]

/-- Maximum of an integer list: NULL (None) for the empty list, matching
SQL `MAX`. -/
def int_list_max : List Int → Option Int
  | [] => none
  | x :: xs => some (xs.foldl max x)

/-- Unfolding `sql_max`'s accumulator once it is non-NULL. -/
theorem sql_max_go (xs : List Int) (a : Int) :
    xs.foldl (fun acc x =>
      match acc with
      | none => some x
      | some m => some (max m x)) (some a) = some (xs.foldl max a) := by
  induction xs generalizing a with
  | nil => rfl
  | cons x xs ih => simpa using ih (max a x)

/-- Function `sql_max` computes the maximum of a non-empty list. -/
theorem sql_max_eq (l : List Int) : sql_max l = int_list_max l := by
  cases l with
  | nil => rfl
  | cons x xs => simpa [sql_max, int_list_max] using sql_max_go xs x

/-- Python `x or 0` on a nullable integer is `getD 0` (0 is its own default). -/
theorem py_or_int_zero (x : Option Int) : py_or_int x 0 = x.getD 0 := by
  cases x with
  | none => rfl
  | some m => by_cases h : m = 0 <;> simp [py_or_int, h]

/-- C8's position rule, read off the claim: the maximum existing position
among tasks sharing the resulting bucket, taken as 0 when the bucket is
empty. -/
def spec_bucket_max (db : DB) (w y : Option Int) : Int :=
  if (db.tasks.filter (fun r => r.week == w && r.year == y)).isEmpty then 0
  else ((int_list_max ((db.tasks.filter (fun r => r.week == w && r.year == y)).filterMap
    TaskRow.position)).getD 0)

/-- The bucket-empty case folds into `getD 0`. -/
theorem spec_bucket_max_eq (db : DB) (w y : Option Int) :
    spec_bucket_max db w y =
      (int_list_max ((db.tasks.filter (fun r => r.week == w && r.year == y)).filterMap
        TaskRow.position)).getD 0 := by
  unfold spec_bucket_max
  by_cases h : (db.tasks.filter (fun r => r.week == w && r.year == y)).isEmpty = true
  · rw [if_pos h, List.isEmpty_iff.mp h]
    rfl
  · rw [if_neg h]

/-- C8: `add_task` with schedule=false stores week/year as NULL regardless
of the supplied values; with schedule=true it uses the supplied pair, or
defaults both to the current ISO week when either is missing; and the new
task's position is 1 plus the maximum existing position in the resulting
bucket (0 for an empty bucket). -/
theorem c8_add_task (db : DB) (ny nw : Int) (ca ti de : String)
    (w0 y0 : Option Int) (tg : List String) (es : Option Int)
    (pr : Option String) (sc : Bool) :
    (sc = false →
      (db.add_task ny nw ca ti de w0 y0 tg es pr sc).1.week = none ∧
      (db.add_task ny nw ca ti de w0 y0 tg es pr sc).1.year = none) ∧
    (sc = true → (w0 = none ∨ y0 = none) →
      (db.add_task ny nw ca ti de w0 y0 tg es pr sc).1.week = some nw ∧
      (db.add_task ny nw ca ti de w0 y0 tg es pr sc).1.year = some ny) ∧
    (sc = true → w0 ≠ none → y0 ≠ none →
      (db.add_task ny nw ca ti de w0 y0 tg es pr sc).1.week = w0 ∧
      (db.add_task ny nw ca ti de w0 y0 tg es pr sc).1.year = y0) ∧
    (db.add_task ny nw ca ti de w0 y0 tg es pr sc).1.position =
      1 + spec_bucket_max db (db.add_task ny nw ca ti de w0 y0 tg es pr sc).1.week
        (db.add_task ny nw ca ti de w0 y0 tg es pr sc).1.year := by
  refine ⟨?_, ?_, ?_, ?_⟩
  · intro hsc
    subst hsc
    simp [DB.add_task]
  · intro hsc hwy
    subst hsc
    simp [DB.add_task, hwy]
  · intro hsc hw hy
    subst hsc
    obtain ⟨a, rfl⟩ := Option.ne_none_iff_exists'.mp hw
    obtain ⟨b, rfl⟩ := Option.ne_none_iff_exists'.mp hy
    simp [DB.add_task]
  · by_cases hsc : sc = true
    · subst hsc
      by_cases hwy : w0 = none ∨ y0 = none
      · simp only [DB.add_task, hwy, if_pos, if_true, eq_self_iff_true]
        rw [py_or_int_zero, sql_max_eq, spec_bucket_max_eq]
        simp [Int.add_comm]
      · obtain ⟨a, ha⟩ := Option.ne_none_iff_exists'.mp (fun h => hwy (Or.inl h))
        obtain ⟨b, hb⟩ := Option.ne_none_iff_exists'.mp (fun h => hwy (Or.inr h))
        subst ha hb
        simp only [DB.add_task, hwy, if_true, if_false, Option.isSome_some,
          Bool.and_self]
        rw [py_or_int_zero, sql_max_eq, spec_bucket_max_eq]
        simp [Int.add_comm]
    · simp only [Bool.not_eq_true] at hsc
      subst hsc
      simp only [DB.add_task, Bool.false_eq_true, if_false]
      rw [py_or_int_zero, sql_max_eq, spec_bucket_max_eq]
      simp [Int.add_comm]

/-- Witness for C8: adding to an empty store with schedule=true and no
week/year lands in the current week (2025, 41) at position 1 + 0. -/
theorem c8_add_task_witness :
    (DB.empty.add_task 2025 41 "c" "A" "" none none [] none none true).1.week = some 41 ∧
    (DB.empty.add_task 2025 41 "c" "A" "" none none [] none none true).1.year = some 2025 ∧
    (DB.empty.add_task 2025 41 "c" "A" "" none none [] none none true).1.position =
      1 + spec_bucket_max DB.empty
        (DB.empty.add_task 2025 41 "c" "A" "" none none [] none none true).1.week
        (DB.empty.add_task 2025 41 "c" "A" "" none none [] none none true).1.year := by
  have h := c8_add_task DB.empty 2025 41 "c" "A" "" none none [] none none true
  exact ⟨(h.2.1 rfl (Or.inl rfl)).1, (h.2.1 rfl (Or.inl rfl)).2, h.2.2.2⟩

/-- Witness for C1 (amended): adding a scheduled task to the empty store
preserves the invariant. -/
theorem c1_amended_witness :
    week_year_ok (DB.empty.add_task 2025 41 "c" "A" "" none none [] none none
      true).2 = true :=
  c1_amended.1 DB.empty 2025 41 "c" "A" "" none none [] none none true (by decide)

/-- Four hundred years hold 146097 days: `days_before_year` deviates from the
linear 146097/400 slope by a bounded amount. -/
theorem days_before_year_bounds (y : Int) :
    146097 * (y - 1) - 699 ≤ 400 * days_before_year y ∧
    400 * days_before_year y ≤ 146097 * (y - 1) + 396 := by
  unfold days_before_year
  omega

/-- The Monday of ISO week 1 lies within days of January 1. -/
theorem week1_start_near (y : Int) :
    days_before_year y - 2 ≤ week1_start y ∧
    week1_start y ≤ days_before_year y + 4 := by
  unfold week1_start jan4_ord weekday
  omega

/-- Every `week1_start` is a Monday (ordinal ≡ 1 mod 7). -/
theorem week1_start_monday (y : Int) : (week1_start y - 1) % 7 = 0 := by
  unfold week1_start jan4_ord weekday
  omega

/-- Consecutive ISO year starts are 364 or 371 days apart (52 or 53
weeks). -/
theorem week1_start_step (y : Int) :
    week1_start (y + 1) - week1_start y = 364 ∨
    week1_start (y + 1) - week1_start y = 371 := by
  have h1 := week1_start_monday y
  have h2 := week1_start_monday (y + 1)
  have h3 : days_before_year (y + 1) - days_before_year y = 365 ∨
      days_before_year (y + 1) - days_before_year y = 366 := by
    unfold days_before_year
    omega
  have h4 := week1_start_near y
  have h5 := week1_start_near (y + 1)
  omega

/-- Function `iso_weeks` divides the year-start gap exactly. -/
theorem iso_weeks_spec (y : Int) :
    7 * iso_weeks y = week1_start (y + 1) - week1_start y := by
  have h1 := week1_start_monday y
  have h2 := week1_start_monday (y + 1)
  unfold iso_weeks
  omega

/-- Every ISO year has 52 or 53 weeks. -/
theorem iso_weeks_cases (y : Int) : iso_weeks y = 52 ∨ iso_weeks y = 53 := by
  have h1 := iso_weeks_spec y
  have h2 := week1_start_step y
  omega

/-- Function `year_of_ord` brackets its ordinal between the surrounding January
1sts. -/
theorem year_of_ord_correct (d : Int) :
    days_before_year (year_of_ord d) < d ∧
    d ≤ days_before_year (year_of_ord d + 1) := by
  unfold year_of_ord
  set g := (400 * d) / 146097 + 1 with hg
  have b1 := days_before_year_bounds (g - 2)
  have b2 := days_before_year_bounds (g - 1)
  have b6 := days_before_year_bounds (g + 3)
  split_ifs with h1 h2 h3 h4
  · rw [show g - 2 + 1 = g - 1 by ring]
    omega
  · rw [show g - 1 + 1 = g by ring]
    omega
  · omega
  · rw [show g + 1 + 1 = g + 2 by ring]
    omega
  · rw [show g + 2 + 1 = g + 3 by ring]
    omega

/-- Evaluating `isocalendar` on the Monday of a valid ISO week returns
exactly that (year, week) pair. -/
theorem isocal_of_monday (y w : Int) (h1 : 1 ≤ w) (h2 : w ≤ iso_weeks y) :
    isocalendar (week1_start y + 7 * (w - 1)) = (y, w) := by
  have hcorr := year_of_ord_correct (week1_start y + 7 * (w - 1))
  set d := week1_start y + 7 * (w - 1) with hd
  set Y := year_of_ord d with hY0
  have bY := days_before_year_bounds Y
  have bY1 := days_before_year_bounds (Y + 1)
  have by0 := days_before_year_bounds y
  have by1 := days_before_year_bounds (y + 1)
  have ny := week1_start_near y
  have ny1 := week1_start_near (y + 1)
  have hiw := iso_weeks_spec y
  have hcase : Y = y ∨ (Y = y - 1 ∧ w = 1) := by omega
  have hiwp : 7 * iso_weeks (y - 1) = week1_start y - week1_start (y - 1) := by
    have h := iso_weeks_spec (y - 1)
    rwa [show y - 1 + 1 = y by ring] at h
  have hiwc := iso_weeks_cases (y - 1)
  unfold isocalendar
  rw [← hY0]
  rcases hcase with hYy | ⟨hYy, hww⟩
  · rw [hYy]
    split_ifs with hA hB
    · exfalso
      omega
    · exfalso
      omega
    · simp only [Prod.mk.injEq]
      exact ⟨trivial, by omega⟩
  · rw [hYy]
    rw [show y - 1 + 1 = y by ring]
    split_ifs with hA hB
    · exfalso
      omega
    · simp only [Prod.mk.injEq]
      exact ⟨trivial, by omega⟩
    · exfalso
      omega

/-- C7: `next_week` and the TUI's previous-week computation are mutually
inverse on every valid (year, week) pair in the datetime-representable
range (excluding (1, 1), whose previous week underflows `datetime.min`),
year boundaries included; in particular previous_week(2025, 1) = (2024, 52)
and next_week(2024, 52) = (2025, 1). -/
theorem c7_next_prev_roundtrip :
    (∀ y w : Int, 1 ≤ y → y ≤ 9999 → 1 ≤ w → w ≤ iso_weeks y →
      ¬(y = 1 ∧ w = 1) →
      get_next_week (get_prev_week y w).1 (get_prev_week y w).2 = (y, w)) ∧
    get_prev_week 2025 1 = (2024, 52) ∧
    get_next_week 2024 52 = (2025, 1) := by
  refine ⟨?_, by decide, by decide⟩
  intro y w hy1 _ hw1 hw2 hne
  have hiw := iso_weeks_spec y
  have hiwc := iso_weeks_cases y
  rcases eq_or_lt_of_le hw1 with heq | hlt
  · have hyne : 2 ≤ y := by
      rcases Int.lt_or_le 1 y with h | h
      · omega
      · exfalso
        exact hne ⟨by omega, heq.symm⟩
    have hiwp : 7 * iso_weeks (y - 1) = week1_start y - week1_start (y - 1) := by
      have h := iso_weeks_spec (y - 1)
      rwa [show y - 1 + 1 = y by ring] at h
    have hiwpc := iso_weeks_cases (y - 1)
    have hprev : get_prev_week y w = (y - 1, iso_weeks (y - 1)) := by
      unfold get_prev_week get_week_range
      rw [show week1_start y + 7 * (w - 1) - 7 =
        week1_start (y - 1) + 7 * (iso_weeks (y - 1) - 1) by omega]
      exact isocal_of_monday (y - 1) (iso_weeks (y - 1)) (by omega) (by omega)
    rw [hprev]
    unfold get_next_week get_week_range
    rw [show week1_start (y - 1) + 7 * (iso_weeks (y - 1) - 1) + 6 + 1 =
      week1_start y + 7 * (w - 1) by omega]
    exact isocal_of_monday y w hw1 hw2
  · have hprev : get_prev_week y w = (y, w - 1) := by
      unfold get_prev_week get_week_range
      rw [show week1_start y + 7 * (w - 1) - 7 =
        week1_start y + 7 * (w - 1 - 1) by ring]
      exact isocal_of_monday y (w - 1) (by omega) (by omega)
    rw [hprev]
    unfold get_next_week get_week_range
    rw [show week1_start y + 7 * (w - 1 - 1) + 6 + 1 =
      week1_start y + 7 * (w - 1) by ring]
    exact isocal_of_monday y w hw1 hw2

/-- Witness for C7 at (2025, 10). -/
theorem c7_next_prev_roundtrip_witness :
    get_next_week (get_prev_week 2025 10).1 (get_prev_week 2025 10).2 = (2025, 10) :=
  c7_next_prev_roundtrip.1 2025 10 (by decide) (by decide) (by decide) (by decide)
    (by decide)

/-- Totality of `str_le`. -/
theorem str_le_total (x y : List Char) : str_le x y = true ∨ str_le y x = true := by
  induction x generalizing y with
  | nil => simp [str_le]
  | cons c cs ih =>
    cases y with
    | nil => simp [str_le]
    | cons d ds =>
      simp only [str_le]
      rcases Nat.lt_trichotomy c.toNat d.toNat with h | h | h
      · simp [h]
      · simp [h, Nat.lt_irrefl]
        exact ih ds
      · simp [h, Nat.lt_asymm h]

/-- Transitivity of `str_le`. -/
theorem str_le_trans (x y z : List Char) (h1 : str_le x y = true)
    (h2 : str_le y z = true) : str_le x z = true := by
  induction x generalizing y z with
  | nil => simp [str_le]
  | cons u us ih =>
    cases y with
    | nil => simp [str_le] at h1
    | cons v vs =>
      cases z with
      | nil => simp [str_le] at h2
      | cons w ws =>
        simp only [str_le] at h1 h2 ⊢
        rcases Nat.lt_trichotomy u.toNat v.toNat with ha | ha | ha <;>
          rcases Nat.lt_trichotomy v.toNat w.toNat with hb | hb | hb <;>
          simp_all [Nat.lt_irrefl, Nat.lt_asymm] <;> first
          | omega
          | (exact ih vs ws h1 h2)

instance : IsTotal String name_le :=
  ⟨fun a b => str_le_total a.data b.data⟩

instance : IsTrans String name_le :=
  ⟨fun a b c => str_le_trans a.data b.data c.data⟩

/-- Structural invariants of a store state: counters are really fresh,
tag ids and names are unique, task ids are unique. They hold for the
empty store and matter only as preconditions here. -/
structure DB.Inv (db : DB) : Prop where
  task_ids_nodup : (db.tasks.map TaskRow.id).Nodup
  task_ids_lt : ∀ r ∈ db.tasks, r.id < db.next_task_id
  tag_names_nodup : (db.tags.map TagRow.name).Nodup
  tag_ids_nodup : (db.tags.map TagRow.id).Nodup
  tag_ids_lt : ∀ t ∈ db.tags, t.id < db.next_tag_id
  assoc_task_lt : ∀ a ∈ db.task_tags, a.task_id < db.next_task_id
  assoc_tag_lt : ∀ a ∈ db.task_tags, a.tag_id < db.next_tag_id

/-- The empty store satisfies the invariants. -/
theorem DB.empty_inv : DB.empty.Inv := by
  refine ⟨?_, ?_, ?_, ?_, ?_, ?_, ?_⟩ <;> simp [DB.empty]

/-- The facts maintained while a list of tag names is attached one by one
to the task id `tid` (which starts with no associations): tag-table
uniqueness, counter freshness, and the key characterization — a name is
associated to `tid` exactly when it has been processed. -/
structure TagFoldInv (tid : Nat) (db : DB) (processed : List String) : Prop where
  names_nodup : (db.tags.map TagRow.name).Nodup
  ids_nodup : (db.tags.map TagRow.id).Nodup
  ids_lt : ∀ t ∈ db.tags, t.id < db.next_tag_id
  assoc_lt : ∀ a ∈ db.task_tags, a.tag_id < db.next_tag_id
  mem_iff : ∀ n, (∃ t ∈ db.tags, t.name = n ∧ TaskTagRow.mk tid t.id ∈ db.task_tags)
    ↔ n ∈ processed

/-- One `_add_tag_to_task` step extends the processed set by exactly the
attached name. -/
theorem add_tag_step (tid : Nat) (db : DB) (processed : List String) (m : String)
    (h : TagFoldInv tid db processed) :
    TagFoldInv tid (db.add_tag_to_task tid m) (processed ++ [m]) := by
  unfold DB.add_tag_to_task DB.get_or_create_tag
  cases hfind : db.tags.find? (fun t => t.name == m) with
  | some t0 =>
    have ht0mem : t0 ∈ db.tags := List.mem_of_find?_eq_some hfind
    have ht0name : t0.name = m := by
      have := List.find?_some hfind
      simpa using this
    simp only
    by_cases hc : db.task_tags.contains (TaskTagRow.mk tid t0.id) = true
    · rw [if_pos hc]
      refine ⟨h.names_nodup, h.ids_nodup, h.ids_lt, h.assoc_lt, ?_⟩
      intro n
      rw [List.mem_append, List.mem_singleton, ← h.mem_iff n]
      constructor
      · exact fun hx => Or.inl hx
      · rintro (hx | rfl)
        · exact hx
        · exact ⟨t0, ht0mem, ht0name, by simpa using hc⟩
    · rw [if_neg hc]
      refine ⟨h.names_nodup, h.ids_nodup, h.ids_lt, ?_, ?_⟩
      · intro a ha
        simp only [List.mem_append, List.mem_singleton] at ha
        rcases ha with ha | rfl
        · exact h.assoc_lt a ha
        · exact h.ids_lt t0 ht0mem
      · intro n
        rw [List.mem_append, List.mem_singleton, ← h.mem_iff n]
        constructor
        · rintro ⟨t, htmem, htname, hassoc⟩
          simp only [List.mem_append, List.mem_singleton] at hassoc
          rcases hassoc with hassoc | heq
          · exact Or.inl ⟨t, htmem, htname, hassoc⟩
          · have hid : t.id = t0.id := by
              have := congrArg TaskTagRow.tag_id heq
              simpa using this
            have hte : t = t0 := List.inj_on_of_nodup_map h.ids_nodup htmem ht0mem hid
            subst hte
            refine Or.inr ?_
            rw [← htname]
            exact ht0name
        · rintro (hx | rfl)
          · obtain ⟨t, htmem, htname, hassoc⟩ := hx
            exact ⟨t, htmem, htname, List.mem_append_left _ hassoc⟩
          · exact ⟨t0, ht0mem, ht0name, by simp⟩
  | none =>
    have hnone : ∀ t ∈ db.tags, t.name ≠ m := by
      intro t ht
      have := List.find?_eq_none.mp hfind t ht
      simpa using this
    have hnc : db.task_tags.contains (TaskTagRow.mk tid db.next_tag_id) = false := by
      by_contra hc
      simp only [Bool.not_eq_false] at hc
      have hmem : TaskTagRow.mk tid db.next_tag_id ∈ db.task_tags := by simpa using hc
      have := h.assoc_lt _ hmem
      simp at this
    simp only
    rw [if_neg (by simpa using hnc)]
    refine ⟨?_, ?_, ?_, ?_, ?_⟩
    · simp only [List.map_append, List.map_cons, List.map_nil]
      rw [List.nodup_append]
      refine ⟨h.names_nodup, List.nodup_singleton m, ?_⟩
      intro a ha hb
      simp only [List.mem_singleton] at hb
      subst hb
      simp only [List.mem_map] at ha
      obtain ⟨t, ht, hta⟩ := ha
      exact hnone t ht hta
    · simp only [List.map_append, List.map_cons, List.map_nil]
      rw [List.nodup_append]
      refine ⟨h.ids_nodup, List.nodup_singleton _, ?_⟩
      intro a ha hb
      simp only [List.mem_singleton] at hb
      subst hb
      simp only [List.mem_map] at ha
      obtain ⟨t, ht, hta⟩ := ha
      have := h.ids_lt t ht
      omega
    · intro t ht
      simp only [List.mem_append, List.mem_singleton] at ht
      show t.id < db.next_tag_id + 1
      rcases ht with ht | rfl
      · have := h.ids_lt t ht
        omega
      · exact Nat.lt_succ_self _
    · intro a ha
      simp only [List.mem_append, List.mem_singleton] at ha
      show a.tag_id < db.next_tag_id + 1
      rcases ha with ha | rfl
      · have := h.assoc_lt a ha
        omega
      · exact Nat.lt_succ_self _
    · intro n
      rw [List.mem_append, List.mem_singleton, ← h.mem_iff n]
      constructor
      · rintro ⟨t, htmem, htname, hassoc⟩
        simp only [List.mem_append, List.mem_singleton] at htmem hassoc
        rcases htmem with htmem | rfl
        · rcases hassoc with hassoc | heq
          · exact Or.inl ⟨t, htmem, htname, hassoc⟩
          · exfalso
            have := h.ids_lt t htmem
            have hid : t.id = db.next_tag_id := by
              have := congrArg TaskTagRow.tag_id heq
              simpa using this
            omega
        · refine Or.inr ?_
          rw [← htname]
      · rintro (hx | rfl)
        · obtain ⟨t, htmem, htname, hassoc⟩ := hx
          exact ⟨t, List.mem_append_left _ htmem, htname,
            List.mem_append_left _ hassoc⟩
        · exact ⟨⟨db.next_tag_id, n⟩, by simp, rfl, by simp⟩

/-- Folding `_add_tag_to_task` over a name list processes exactly those
names. -/
theorem add_tag_fold (tid : Nat) (ns : List String) (db : DB)
    (processed : List String) (h : TagFoldInv tid db processed) :
    TagFoldInv tid (ns.foldl (fun d n => d.add_tag_to_task tid n) db)
      (processed ++ ns) := by
  induction ns generalizing db processed with
  | nil => simpa using h
  | cons n ns ih =>
    have hstep := add_tag_step tid db processed n h
    have := ih (db.add_tag_to_task tid n) (processed ++ [n]) hstep
    simpa using this

/-- Lookup `find?` skips a prefix on which the predicate is false. -/
theorem find?_append_right {α : Type} (p : α → Bool) (l1 l2 : List α)
    (h : ∀ a ∈ l1, p a = false) : (l1 ++ l2).find? p = l2.find? p := by
  induction l1 with
  | nil => rfl
  | cons x xs ih =>
    rw [List.cons_append]
    rw [List.find?_cons_of_neg _ (by simp [h x (by simp)])]
    exact ih (fun a ha => h a (by simp [ha]))

/-- Starting from a store whose `task_tags` never mention `tid`, folding
the tag names over `_add_tag_to_task` processes exactly those names. -/
theorem fold_inv_start (tid : Nat) (tg : List String) (d : DB)
    (h1 : (d.tags.map TagRow.name).Nodup) (h2 : (d.tags.map TagRow.id).Nodup)
    (h3 : ∀ t ∈ d.tags, t.id < d.next_tag_id)
    (h4 : ∀ a ∈ d.task_tags, a.tag_id < d.next_tag_id)
    (h5 : ∀ a ∈ d.task_tags, a.task_id ≠ tid) :
    TagFoldInv tid (tg.foldl (fun x n => x.add_tag_to_task tid n) d) tg := by
  have hbase : TagFoldInv tid d [] := by
    refine ⟨h1, h2, h3, h4, ?_⟩
    intro n
    simp only [List.not_mem_nil, iff_false]
    rintro ⟨t, htmem, htname, hassoc⟩
    exact h5 _ hassoc rfl
  simpa using add_tag_fold tid tg d [] hbase

/-- Decomposition of `add_task`: insert the fresh row, then fold the tags. -/
theorem add_task_decomp (db : DB) (ny nw : Int) (ca ti de : String)
    (w0 y0 : Option Int) (tg : List String) (es : Option Int)
    (pr : Option String) (sc : Bool) :
    ∃ row : TaskRow,
      (db.add_task ny nw ca ti de w0 y0 tg es pr sc).2 =
        tg.foldl (fun d n => d.add_tag_to_task db.next_task_id n)
          { db with tasks := db.tasks ++ [row],
                    next_task_id := db.next_task_id + 1 } ∧
      row.id = db.next_task_id :=
  ⟨_, rfl, rfl⟩

/-- C10: the `Task` returned by `add_task` carries its tags exactly as
supplied (caller order, duplicates preserved), while reading the task back
(`get_task`, whose tags come from `_get_task_tags`, shared by every list
operation) yields the names de-duplicated and sorted by the BINARY name
order — so the two views of the same task can differ, e.g. on
["b", "a"]. -/
theorem c10_add_task_tags (db : DB) (ny nw : Int) (ca ti de : String)
    (w0 y0 : Option Int) (tg : List String) (es : Option Int)
    (pr : Option String) (sc : Bool) (hinv : db.Inv) :
    (db.add_task ny nw ca ti de w0 y0 tg es pr sc).1.tags = tg ∧
    ((db.add_task ny nw ca ti de w0 y0 tg es pr sc).2.get_task
        (db.add_task ny nw ca ti de w0 y0 tg es pr sc).1.id).map Task.tags =
      some ((db.add_task ny nw ca ti de w0 y0 tg es pr sc).2.get_task_tags
        (db.add_task ny nw ca ti de w0 y0 tg es pr sc).1.id) ∧
    List.Sorted name_le
      ((db.add_task ny nw ca ti de w0 y0 tg es pr sc).2.get_task_tags
        (db.add_task ny nw ca ti de w0 y0 tg es pr sc).1.id) ∧
    ((db.add_task ny nw ca ti de w0 y0 tg es pr sc).2.get_task_tags
      (db.add_task ny nw ca ti de w0 y0 tg es pr sc).1.id).Nodup ∧
    (∀ n, n ∈ (db.add_task ny nw ca ti de w0 y0 tg es pr sc).2.get_task_tags
        (db.add_task ny nw ca ti de w0 y0 tg es pr sc).1.id ↔ n ∈ tg) ∧
    (DB.empty.add_task 0 0 "c" "A" "" none none ["b", "a"] none none true).1.tags ≠
      (DB.empty.add_task 0 0 "c" "A" "" none none ["b", "a"] none none
        true).2.get_task_tags
        (DB.empty.add_task 0 0 "c" "A" "" none none ["b", "a"] none none
          true).1.id := by
  set res := db.add_task ny nw ca ti de w0 y0 tg es pr sc with hres
  have hid : res.1.id = db.next_task_id := rfl
  obtain ⟨row, hdec, hrowid⟩ := add_task_decomp db ny nw ca ti de w0 y0 tg es pr sc
  rw [← hres] at hdec
  have hrows : res.2.tasks = db.tasks ++ [row] := by
    rw [hdec, foldl_add_tag_tasks]
  have hfold : TagFoldInv db.next_task_id res.2 tg := by
    rw [hdec]
    exact fold_inv_start db.next_task_id tg _ hinv.tag_names_nodup hinv.tag_ids_nodup
      hinv.tag_ids_lt hinv.assoc_tag_lt
      (fun a ha => by have := hinv.assoc_task_lt a ha; omega)
  have hmem_names : ∀ n, (n ∈ (res.2.tags.filter (fun t =>
      res.2.task_tags.contains ⟨db.next_task_id, t.id⟩)).map TagRow.name) ↔ n ∈ tg := by
    intro n
    rw [← hfold.mem_iff n]
    simp only [List.mem_map, List.mem_filter]
    constructor
    · rintro ⟨t, ⟨htmem, hcont⟩, rfl⟩
      exact ⟨t, htmem, rfl, by simpa using hcont⟩
    · rintro ⟨t, htmem, htname, hassoc⟩
      exact ⟨t, ⟨htmem, by simpa using hassoc⟩, htname⟩
  have hnames_nodup : ((res.2.tags.filter (fun t =>
      res.2.task_tags.contains ⟨db.next_task_id, t.id⟩)).map TagRow.name).Nodup :=
    hfold.names_nodup.sublist ((List.filter_sublist _).map TagRow.name)
  have hperm := List.perm_insertionSort name_le ((res.2.tags.filter (fun t =>
    res.2.task_tags.contains ⟨db.next_task_id, t.id⟩)).map TagRow.name)
  refine ⟨rfl, ?_, ?_, ?_, ?_, by decide⟩
  · rw [hid]
    have hskip : ∀ a ∈ db.tasks, (fun r : TaskRow => r.id == db.next_task_id) a = false := by
      intro a ha
      simp only [beq_eq_false_iff_ne]
      have := hinv.task_ids_lt a ha
      omega
    have hfind : res.2.tasks.find? (fun r => r.id == db.next_task_id) = some row := by
      rw [hrows, find?_append_right _ _ _ hskip,
        List.find?_cons_of_pos _ (by simp [hrowid])]
    unfold DB.get_task
    rw [hfind]
    simp only [Option.map_some', DB.row_to_task]
    rw [hrowid]
  · rw [hid]
    exact List.sorted_insertionSort name_le _
  · rw [hid]
    exact hperm.nodup_iff.mpr hnames_nodup
  · intro n
    rw [hid]
    exact Iff.trans hperm.mem_iff (hmem_names n)

/-- Witness for C10: on the empty store with tags ["b", "a"], `add_task`
returns them as supplied while the read-back is sorted and deduplicated. -/
theorem c10_add_task_tags_witness :
    (DB.empty.add_task 2025 41 "c" "A" "" none none ["b", "a"] none none
      true).1.tags = ["b", "a"] ∧
    (DB.empty.add_task 2025 41 "c" "A" "" none none ["b", "a"] none none
      true).2.get_task_tags
      (DB.empty.add_task 2025 41 "c" "A" "" none none ["b", "a"] none none
        true).1.id = ["a", "b"] := by
  have h := c10_add_task_tags DB.empty 2025 41 "c" "A" "" none none ["b", "a"]
    none none true DB.empty_inv
  exact ⟨h.1, by decide⟩

end Kairo
